import Mathlib

/-
Verification of the group chat manager in
src/python/packages/autogen-agentchat/src/autogen_agentchat/teams/_group_chat/_base_group_chat_manager.py

The manager is embedded as pure state-passing functions.  External pluggable
collaborators (validator, speaker selector, termination condition) are fields
of the configuration; side effects of one handler invocation (output queue
puts, bus publications, raised exception) are collected in a result record.
-/

namespace AgentChat

/-- A stop message, as produced by a termination condition or synthesized by
the manager; carries content and source. -/
structure StopMessage where
  content : String
  source : String
  deriving Repr, DecidableEq

/-- Errors raised inside the group chat manager or by its pluggable
collaborators. -/
inductive GCError where
  | valueError (msg : String)
  | unknownSpeaker (name : String)
  | removeError (name : String)
  | validationError (msg : String)
  | selectionError (msg : String)
  deriving Repr, DecidableEq

/-- Result of a speaker selector: a single name or a list of names,
mirroring the `List[str] | str` return type of select_speaker. -/
inductive SpeakerSel where
  | one (name : String)
  | many (names : List String)
  deriving Repr, DecidableEq

/-- The pluggable termination condition: stateful evaluation over a message
delta, an observable terminated flag, and a reset operation. -/
structure TerminationCondition (α σ : Type) where
  eval : σ → List α → Option StopMessage × σ
  terminated : σ → Bool
  resetState : σ → σ

/-- Construction-time configuration of the group chat manager, including the
pluggable validator, speaker selector and termination condition. -/
structure Config (α σ : Type) where
  name : String
  group_topic_type : String
  output_topic_type : String
  participant_topic_types : List String
  participant_names : List String
  participant_descriptions : List String
  termination_condition : Option (TerminationCondition α σ)
  max_turns : Option Int
  emit_team_events : Bool
  validate_group_state : Option (List α) → Except GCError Unit
  select_speaker : List α → Except GCError SpeakerSel

/-- Mutable state of the group chat manager. -/
structure ManagerState (α σ : Type) where
  message_thread : List α
  current_turn : Nat
  active_speakers : List String
  condState : σ

/-- An item put on the output message queue. -/
inductive OutItem (α : Type) where
  | msg (m : α)
  | selectSpeaker (names : List String)
  | termination (message : StopMessage) (error : Option GCError)
  deriving Repr, DecidableEq

/-- A message published to the bus, tagged with its destination topic. -/
inductive Published (α : Type) where
  | startMsg (topic : String) (messages : List α)
  | chatMessage (topic : String) (names : List String)
  | requestPublish (topic : String)
  | termination (topic : String) (message : StopMessage) (error : Option GCError)
  deriving Repr, DecidableEq

/-- Effects and final state of one message-handler invocation; `error` records
an exception re-raised to the hosting runtime after the listed effects. -/
structure HandlerResult (α σ : Type) where
  state : ManagerState α σ
  outQueue : List (OutItem α)
  published : List (Published α)
  selectorCalls : Nat
  condEvals : Nat
  validatorCalls : Nat
  error : Option GCError

/-- Whether the optional maximum turn count is present and not strictly
positive. -/
def badMax : Option Int → Bool
  | some m => decide (m ≤ 0)
  | none => false

/-- The constructor checks of BaseGroupChatManager.__init__, in source order,
ending with the strict zip of participant names against topic types; returns
the freshly initialized manager state or the first ValueError raised. -/
def init (cfg : Config α σ) (cs : σ) : Except GCError (ManagerState α σ) :=
  if badMax cfg.max_turns then
    .error (.valueError "The maximum number of turns must be greater than 0.")
  else if cfg.participant_topic_types.length ≠ cfg.participant_descriptions.length then
    .error (.valueError "The number of participant topic types, agent types, and descriptions must be the same.")
  else if ¬ cfg.participant_topic_types.Nodup then
    .error (.valueError "The participant topic types must be unique.")
  else if cfg.group_topic_type ∈ cfg.participant_topic_types then
    .error (.valueError "The group topic type must not be in the participant topic types.")
  else if cfg.participant_names.length ≠ cfg.participant_topic_types.length then
    .error (.valueError "strict zip of participant names and topic types failed")
  else
    .ok { message_thread := [], current_turn := 0, active_speakers := [], condState := cs }

/-- Whether an Except value is an error. -/
def isErr : Except GCError γ → Bool
  | .error _ => true
  | .ok _ => false

/-- Last-binding-wins lookup in the name-to-topic dictionary built by zipping
participant names with participant topic types. -/
def lookupTopic (cfg : Config α σ) (n : String) : Option String :=
  (cfg.participant_names.zip cfg.participant_topic_types).foldl
    (fun acc p => if p.1 = n then some p.2 else acc) none

/-- Whether the manager observes itself as already terminated: a termination
condition is configured and its terminated flag is set. -/
def alreadyTerminated (cfg : Config α σ) (s : ManagerState α σ) : Bool :=
  match cfg.termination_condition with
  | some tc => tc.terminated s.condState
  | none => false

/-- Normalization of a selector result: a single name becomes a one-element
list. -/
def normalizeSel : SpeakerSel → List String
  | .one n => [n]
  | .many l => l

/-- An agent or team response event as received by the manager. -/
inductive ResponseMsg (α : Type) where
  | agent (name : String) (inner : Option (List α)) (chat : α)
  | team (name : String) (messages : List α)

/-- The message delta extracted from a response: inner messages followed by the
final chat message, or the full sub-team message list. -/
def deltaOf : ResponseMsg α → List α
  | .agent _ inner chat => inner.getD [] ++ [chat]
  | .team _ messages => messages

/-- The reported speaker name of a response. -/
def nameOf : ResponseMsg α → String
  | .agent n _ _ => n
  | .team n _ => n

/-- Result of _apply_termination_condition: whether the chat stops, the updated
state, the effects, and how many times the condition was evaluated. -/
structure ApplyResult (α σ : Type) where
  stop : Bool
  state : ManagerState α σ
  outQueue : List (OutItem α)
  published : List (Published α)
  condEvals : Nat

/-- The maximum-turns half of _apply_termination_condition: optional turn
increment, then the max-turns check with its synthesized stop message. -/
def applyMaxTurns (cfg : Config α σ) (s : ManagerState α σ)
    (increment_turn_count : Bool) (evals : Nat) : ApplyResult α σ :=
  let s1 := if increment_turn_count then { s with current_turn := s.current_turn + 1 } else s
  match cfg.max_turns with
  | some m =>
    if (s1.current_turn : Int) ≥ m then
      let sm : StopMessage :=
        { content := "Maximum number of turns " ++ toString m ++ " reached.",
          source := cfg.name }
      let cs1 := match cfg.termination_condition with
        | some tc => tc.resetState s1.condState
        | none => s1.condState
      { stop := true,
        state := { s1 with condState := cs1, current_turn := 0 },
        outQueue := [.termination sm none],
        published := [.termination cfg.output_topic_type sm none],
        condEvals := evals }
    else
      { stop := false, state := s1, outQueue := [], published := [], condEvals := evals }
  | none =>
    { stop := false, state := s1, outQueue := [], published := [], condEvals := evals }

/-- The _apply_termination_condition method: evaluate the configured condition
over the delta; on a stop, reset the condition and turn count and signal
termination; otherwise fall through to the turn increment and max-turns
check. -/
def applyTerminationCondition (cfg : Config α σ) (s : ManagerState α σ)
    (delta : List α) (increment_turn_count : Bool) : ApplyResult α σ :=
  match cfg.termination_condition with
  | some tc =>
    match tc.eval s.condState delta with
    | (some stop_message, cs) =>
      { stop := true,
        state := { s with condState := tc.resetState cs, current_turn := 0 },
        outQueue := [.termination stop_message none],
        published := [.termination cfg.output_topic_type stop_message none],
        condEvals := 1 }
    | (none, cs) =>
      applyMaxTurns cfg { s with condState := cs } increment_turn_count 1
  | none => applyMaxTurns cfg s increment_turn_count 0

/-- Result of _transition_to_next_speakers: updated state, effects, and the
exception raised, if any. -/
structure TransResult (α σ : Type) where
  state : ManagerState α σ
  outQueue : List (OutItem α)
  published : List (Published α)
  error : Option GCError

/-- The _transition_to_next_speakers method: call the selector, normalize its
result, validate every returned name against the registry (raising on the
first unknown name before any effect), optionally log the selection, then
publish a request to each selected speaker and add it to the active set. -/
def transitionToNextSpeakers (cfg : Config α σ) (s : ManagerState α σ) : TransResult α σ :=
  match cfg.select_speaker s.message_thread with
  | .error e => { state := s, outQueue := [], published := [], error := some e }
  | .ok sel =>
    let speaker_names := normalizeSel sel
    match speaker_names.find? (fun n => (lookupTopic cfg n).isNone) with
    | some bad =>
      { state := s, outQueue := [], published := [], error := some (.unknownSpeaker bad) }
    | none =>
      let logOut : List (OutItem α) :=
        if cfg.emit_team_events then [.selectSpeaker speaker_names] else []
      let logPub : List (Published α) :=
        if cfg.emit_team_events then [.chatMessage cfg.output_topic_type speaker_names] else []
      let reqs : List (Published α) :=
        speaker_names.map (fun n => .requestPublish ((lookupTopic cfg n).getD ""))
      { state := { s with active_speakers := s.active_speakers ++ speaker_names },
        outQueue := logOut,
        published := logPub ++ reqs,
        error := none }

/-- The handle_start RPC handler.  Note that it has no exception handler: a
validator or speaker-transition exception propagates to the runtime without a
termination signal being emitted. -/
def handle_start (cfg : Config α σ) (s : ManagerState α σ)
    (messages : Option (List α)) (output_task_messages : Bool) : HandlerResult α σ :=
  if alreadyTerminated cfg s then
    let sm : StopMessage :=
      { content := "The group chat has already terminated.", source := cfg.name }
    { state := s,
      outQueue := [.termination sm none],
      published := [.termination cfg.output_topic_type sm none],
      selectorCalls := 0, condEvals := 0, validatorCalls := 0, error := none }
  else
    match cfg.validate_group_state messages with
    | .error e =>
      { state := s, outQueue := [], published := [],
        selectorCalls := 0, condEvals := 0, validatorCalls := 1, error := some e }
    | .ok _ =>
      match messages with
      | some msgs =>
        let out0 : List (OutItem α) :=
          if output_task_messages then msgs.map OutItem.msg else []
        let pub1 : List (Published α) :=
          [.startMsg cfg.output_topic_type msgs, .startMsg cfg.group_topic_type msgs]
        let s1 := { s with message_thread := s.message_thread ++ msgs }
        let a := applyTerminationCondition cfg s1 msgs false
        if a.stop then
          { state := a.state, outQueue := out0 ++ a.outQueue, published := pub1 ++ a.published,
            selectorCalls := 0, condEvals := a.condEvals, validatorCalls := 1, error := none }
        else
          let t := transitionToNextSpeakers cfg a.state
          { state := t.state, outQueue := out0 ++ a.outQueue ++ t.outQueue,
            published := pub1 ++ a.published ++ t.published,
            selectorCalls := 1, condEvals := a.condEvals, validatorCalls := 1, error := t.error }
      | none =>
        let t := transitionToNextSpeakers cfg s
        { state := t.state, outQueue := t.outQueue, published := t.published,
          selectorCalls := 1, condEvals := 0, validatorCalls := 1, error := t.error }

/-- The handle_agent_response event handler, whose whole body runs inside a
try/except that converts any exception into a termination-with-error event
before re-raising it. -/
def handle_agent_response (cfg : Config α σ) (s : ManagerState α σ)
    (resp : ResponseMsg α) : HandlerResult α σ :=
  let delta := deltaOf resp
  let nm := nameOf resp
  let s1 := { s with message_thread := s.message_thread ++ delta }
  if nm ∈ s.active_speakers then
    let s2 := { s1 with active_speakers := s1.active_speakers.erase nm }
    if 0 < s2.active_speakers.length then
      { state := s2, outQueue := [], published := [],
        selectorCalls := 0, condEvals := 0, validatorCalls := 0, error := none }
    else
      let a := applyTerminationCondition cfg s2 delta true
      if a.stop then
        { state := a.state, outQueue := a.outQueue, published := a.published,
          selectorCalls := 0, condEvals := a.condEvals, validatorCalls := 0, error := none }
      else
        let t := transitionToNextSpeakers cfg a.state
        match t.error with
        | some e =>
          let sm : StopMessage :=
            { content := "An error occurred in the group chat.", source := cfg.name }
          { state := t.state,
            outQueue := a.outQueue ++ t.outQueue ++ [.termination sm (some e)],
            published := a.published ++ t.published
              ++ [.termination cfg.output_topic_type sm (some e)],
            selectorCalls := 1, condEvals := a.condEvals, validatorCalls := 0,
            error := some e }
        | none =>
          { state := t.state, outQueue := a.outQueue ++ t.outQueue,
            published := a.published ++ t.published,
            selectorCalls := 1, condEvals := a.condEvals, validatorCalls := 0, error := none }
  else
    let e : GCError := .removeError nm
    let sm : StopMessage :=
      { content := "An error occurred in the group chat.", source := cfg.name }
    { state := s1,
      outQueue := [.termination sm (some e)],
      published := [.termination cfg.output_topic_type sm (some e)],
      selectorCalls := 0, condEvals := 0, validatorCalls := 0, error := some e }

/-- An inbound message to the group chat manager. -/
inductive Inbound (α : Type) where
  | start (messages : Option (List α)) (output_task_messages : Bool)
  | response (r : ResponseMsg α)
  | relay (m : α)
  | errorMsg (e : GCError)
  | pause
  | resume

/-- One dispatch step of the manager, covering all handlers: Start, agent and
team responses, relayed GroupChatMessage, participant GroupChatError, and the
no-op pause and resume handlers. -/
def step (cfg : Config α σ) (s : ManagerState α σ) : Inbound α → HandlerResult α σ
  | .start messages otm => handle_start cfg s messages otm
  | .response r => handle_agent_response cfg s r
  | .relay m =>
    { state := s, outQueue := [.msg m], published := [],
      selectorCalls := 0, condEvals := 0, validatorCalls := 0, error := none }
  | .errorMsg e =>
    let sm : StopMessage :=
      { content := "An error occurred in the group chat.", source := cfg.name }
    { state := s,
      outQueue := [.termination sm (some e)],
      published := [.termination cfg.output_topic_type sm (some e)],
      selectorCalls := 0, condEvals := 0, validatorCalls := 0, error := none }
  | .pause =>
    { state := s, outQueue := [], published := [],
      selectorCalls := 0, condEvals := 0, validatorCalls := 0, error := none }
  | .resume =>
    { state := s, outQueue := [], published := [],
      selectorCalls := 0, condEvals := 0, validatorCalls := 0, error := none }

/-- Whether an output-queue item is a termination event. -/
def OutItem.isTermination : OutItem α → Bool
  | .termination _ _ => true
  | _ => false

/-- The number of termination events among a list of output-queue items. -/
def countTerm (l : List (OutItem α)) : Nat :=
  (l.filter OutItem.isTermination).length

/-- Whether a published bus message is a directed respond-now request. -/
def Published.isRequestPublish : Published α → Bool
  | .requestPublish _ => true
  | _ => false

/-- Whether the configured termination condition signals a stop on the given
delta from the given condition state. -/
def condStops (cfg : Config α σ) (cs : σ) (delta : List α) : Bool :=
  match cfg.termination_condition with
  | some tc => ((tc.eval cs delta).1).isSome
  | none => false

/-- Whether a turn count has reached the configured maximum number of turns. -/
def maxReached (cfg : Config α σ) (t : Nat) : Bool :=
  match cfg.max_turns with
  | some m => decide ((t : Int) ≥ m)
  | none => false

/-- The tail of handle_agent_response after a round completes: the
apply-termination result is either final (stop), or followed by a speaker
transition whose failure is converted into a termination-with-error event and
re-raised. -/
def afterComplete (cfg : Config α σ) (a : ApplyResult α σ) : HandlerResult α σ :=
  if a.stop then
    { state := a.state, outQueue := a.outQueue, published := a.published,
      selectorCalls := 0, condEvals := a.condEvals, validatorCalls := 0, error := none }
  else
    let t := transitionToNextSpeakers cfg a.state
    match t.error with
    | some e =>
      { state := t.state,
        outQueue := a.outQueue ++ t.outQueue
          ++ [.termination { content := "An error occurred in the group chat.", source := cfg.name } (some e)],
        published := a.published ++ t.published
          ++ [.termination cfg.output_topic_type
               { content := "An error occurred in the group chat.", source := cfg.name }
               (some e)],
        selectorCalls := 1, condEvals := a.condEvals, validatorCalls := 0,
        error := some e }
    | none =>
      { state := t.state, outQueue := a.outQueue ++ t.outQueue,
        published := a.published ++ t.published,
        selectorCalls := 1, condEvals := a.condEvals, validatorCalls := 0, error := none }

/-- One if an optional error is present, zero otherwise. -/
def errWeight : Option GCError → Nat
  | some _ => 1
  | none => 0

/-- A termination condition over state Bool (the terminated flag) that never
signals a stop. -/
def condNever : TerminationCondition Nat Bool :=
  { eval := fun cs _ => (none, cs), terminated := fun b => b, resetState := fun _ => false }

/-- A termination condition over state Bool that signals a stop when the delta
contains the message 7. -/
def condOnSeven : TerminationCondition Nat Bool :=
  { eval := fun cs delta =>
      if 7 ∈ delta then (some { content := "seven", source := "cond" }, true) else (none, cs),
    terminated := fun b => b, resetState := fun _ => false }

/-- A concrete two-participant configuration used by witnesses and
counterexamples. -/
def cfgW : Config Nat Bool :=
  { name := "manager", group_topic_type := "group", output_topic_type := "output",
    participant_topic_types := ["tx", "ty"],
    participant_names := ["X", "Y"],
    participant_descriptions := ["dx", "dy"],
    termination_condition := some condNever,
    max_turns := some 2,
    emit_team_events := false,
    validate_group_state := fun _ => .ok (),
    select_speaker := fun _ => .ok (.one "X") }

/-- A fresh manager state with terminated flag cleared. -/
def stW : ManagerState Nat Bool :=
  { message_thread := [], current_turn := 0, active_speakers := [], condState := false }

/-- The witness configuration with the stop-on-seven termination condition. -/
def cfg9 : Config Nat Bool :=
  { cfgW with termination_condition := some condOnSeven }

/-- The witness configuration with a maximum of one turn. -/
def cfgMax1 : Config Nat Bool :=
  { cfgW with max_turns := some 1 }

/-- The witness configuration whose selector returns the unknown name Z and
which has no termination condition. -/
def cfgZ : Config Nat Bool :=
  { cfgW with select_speaker := fun _ => .ok (.one "Z"), termination_condition := none }

/-- The witness configuration whose selector returns the unknown name Z,
keeping the never-stopping termination condition. -/
def cfgZresp : Config Nat Bool :=
  { cfgW with select_speaker := fun _ => .ok (.one "Z") }

/-- The witness configuration whose validator always fails. -/
def cfgV : Config Nat Bool :=
  { cfgW with validate_group_state := fun _ => .error (.validationError "bad") }

theorem countTerm_append (l1 l2 : List (OutItem α)) :
    countTerm (l1 ++ l2) = countTerm l1 + countTerm l2 := by
  simp [countTerm, List.filter_append]

theorem countTerm_map_msg (l : List α) : countTerm (l.map OutItem.msg) = 0 := by
  induction l with
  | nil => rfl
  | cons x xs ih =>
    simp only [List.map_cons, countTerm, List.filter] at ih ⊢
    simp [OutItem.isTermination]

theorem filterTerm_map_msg (l : List α) :
    (l.map OutItem.msg).filter OutItem.isTermination = [] := by
  induction l with
  | nil => rfl
  | cons x xs ih =>
    simp only [List.map_cons, List.filter] at ih ⊢
    simp [OutItem.isTermination]

theorem trans_preserves (cfg : Config α σ) (s : ManagerState α σ) :
    (transitionToNextSpeakers cfg s).state.message_thread = s.message_thread ∧
    (transitionToNextSpeakers cfg s).state.current_turn = s.current_turn ∧
    (transitionToNextSpeakers cfg s).state.condState = s.condState ∧
    countTerm (transitionToNextSpeakers cfg s).outQueue = 0 := by
  unfold transitionToNextSpeakers
  cases h : cfg.select_speaker s.message_thread with
  | error e => simp [countTerm]
  | ok sel =>
    cases hf : (normalizeSel sel).find? (fun n => (lookupTopic cfg n).isNone) with
    | some bad => simp [hf, countTerm]
    | none =>
      by_cases he : cfg.emit_team_events <;>
        simp [hf, he, countTerm, OutItem.isTermination]

theorem apply_cases (cfg : Config α σ) (s : ManagerState α σ) (delta : List α) (inc : Bool) :
    ((applyTerminationCondition cfg s delta inc).stop = true ∧
      (applyTerminationCondition cfg s delta inc).state.current_turn = 0 ∧
      countTerm (applyTerminationCondition cfg s delta inc).outQueue = 1 ∧
      (applyTerminationCondition cfg s delta inc).published.filter Published.isRequestPublish = []) ∨
    ((applyTerminationCondition cfg s delta inc).stop = false ∧
      (applyTerminationCondition cfg s delta inc).state.current_turn =
        (if inc then s.current_turn + 1 else s.current_turn) ∧
      (applyTerminationCondition cfg s delta inc).outQueue = [] ∧
      (applyTerminationCondition cfg s delta inc).published = []) := by
  unfold applyTerminationCondition applyMaxTurns
  cases hc : cfg.termination_condition with
  | none =>
    cases hm : cfg.max_turns with
    | none => right; cases inc <;> simp
    | some m =>
      cases inc with
      | false =>
        rcases le_or_lt m (s.current_turn : Int) with hge | hlt
        · left; simp [hge, countTerm, OutItem.isTermination, Published.isRequestPublish]
        · right; simp [not_le.mpr hlt]
      | true =>
        rcases le_or_lt m ((s.current_turn : Int) + 1) with hge | hlt
        · left; simp [hge, countTerm, OutItem.isTermination, Published.isRequestPublish]
        · right; simp [not_le.mpr hlt]
  | some tc =>
    cases he : tc.eval s.condState delta with
    | mk o cs =>
      cases o with
      | some sm => left; simp [he, countTerm, OutItem.isTermination, Published.isRequestPublish]
      | none =>
        simp only [he]
        cases hm : cfg.max_turns with
        | none => right; cases inc <;> simp
        | some m =>
          cases inc with
          | false =>
            rcases le_or_lt m (s.current_turn : Int) with hge | hlt
            · left; simp [hge, countTerm, OutItem.isTermination, Published.isRequestPublish]
            · right; simp [not_le.mpr hlt]
          | true =>
            rcases le_or_lt m ((s.current_turn : Int) + 1) with hge | hlt
            · left; simp [hge, countTerm, OutItem.isTermination, Published.isRequestPublish]
            · right; simp [not_le.mpr hlt]


theorem trans_turn (cfg : Config α σ) (s : ManagerState α σ) :
    (transitionToNextSpeakers cfg s).state.current_turn = s.current_turn :=
  (trans_preserves cfg s).2.1

theorem trans_thread (cfg : Config α σ) (s : ManagerState α σ) :
    (transitionToNextSpeakers cfg s).state.message_thread = s.message_thread :=
  (trans_preserves cfg s).1

theorem trans_condState (cfg : Config α σ) (s : ManagerState α σ) :
    (transitionToNextSpeakers cfg s).state.condState = s.condState :=
  (trans_preserves cfg s).2.2.1

theorem trans_countTerm (cfg : Config α σ) (s : ManagerState α σ) :
    countTerm (transitionToNextSpeakers cfg s).outQueue = 0 :=
  (trans_preserves cfg s).2.2.2

theorem trans_err (cfg : Config α σ) (s : ManagerState α σ) (e : GCError)
    (h : (transitionToNextSpeakers cfg s).error = some e) :
    (transitionToNextSpeakers cfg s).state = s ∧
    (transitionToNextSpeakers cfg s).outQueue = [] ∧
    (transitionToNextSpeakers cfg s).published = [] := by
  unfold transitionToNextSpeakers at *
  cases hs : cfg.select_speaker s.message_thread with
  | error e2 => simp [hs]
  | ok sel =>
    cases hf : (normalizeSel sel).find? (fun n => (lookupTopic cfg n).isNone) with
    | some bad => simp [hs, hf]
    | none => rw [hs] at h; simp [hf] at h

theorem apply_eval_some (cfg : Config α σ) (s : ManagerState α σ) (delta : List α)
    (inc : Bool) (tc : TerminationCondition α σ) (sm : StopMessage) (cs : σ)
    (hc : cfg.termination_condition = some tc)
    (he : tc.eval s.condState delta = (some sm, cs)) :
    applyTerminationCondition cfg s delta inc =
      { stop := true,
        state := { s with condState := tc.resetState cs, current_turn := 0 },
        outQueue := [.termination sm none],
        published := [.termination cfg.output_topic_type sm none],
        condEvals := 1 } := by
  unfold applyTerminationCondition
  simp only [hc, he]

theorem apply_eval_none (cfg : Config α σ) (s : ManagerState α σ) (delta : List α)
    (inc : Bool) (tc : TerminationCondition α σ) (cs : σ)
    (hc : cfg.termination_condition = some tc)
    (he : tc.eval s.condState delta = (none, cs)) :
    applyTerminationCondition cfg s delta inc =
      applyMaxTurns cfg { s with condState := cs } inc 1 := by
  unfold applyTerminationCondition
  simp only [hc, he]

theorem apply_nocond (cfg : Config α σ) (s : ManagerState α σ) (delta : List α)
    (inc : Bool) (hc : cfg.termination_condition = none) :
    applyTerminationCondition cfg s delta inc = applyMaxTurns cfg s inc 0 := by
  unfold applyTerminationCondition
  simp only [hc]

theorem applyMax_not_reached (cfg : Config α σ) (s : ManagerState α σ) (inc : Bool)
    (evals : Nat)
    (h : maxReached cfg (if inc then s.current_turn + 1 else s.current_turn) = false) :
    applyMaxTurns cfg s inc evals =
      { stop := false,
        state := if inc then { s with current_turn := s.current_turn + 1 } else s,
        outQueue := [], published := [], condEvals := evals } := by
  unfold applyMaxTurns maxReached at *
  cases hm : cfg.max_turns with
  | none => cases inc <;> simp
  | some m =>
    rw [hm] at h
    have h2 := of_decide_eq_false h
    cases inc <;> simp_all

theorem applyMax_reached (cfg : Config α σ) (s : ManagerState α σ) (inc : Bool)
    (evals : Nat) (m : Int) (hm : cfg.max_turns = some m)
    (hge : ((if inc then s.current_turn + 1 else s.current_turn : Nat) : Int) ≥ m) :
    applyMaxTurns cfg s inc evals =
      { stop := true,
        state := { s with
          current_turn := 0,
          condState := (match cfg.termination_condition with
            | some tc => tc.resetState s.condState
            | none => s.condState) },
        outQueue := [.termination
          { content := "Maximum number of turns " ++ toString m ++ " reached.",
            source := cfg.name } none],
        published := [.termination cfg.output_topic_type
          { content := "Maximum number of turns " ++ toString m ++ " reached.",
            source := cfg.name } none],
        condEvals := evals } := by
  unfold applyMaxTurns
  rw [hm]
  cases inc <;> simp_all

/-- C2: sending Start to a manager whose termination condition already reports
terminated enqueues exactly one additional Termination event carrying the
"already terminated" stop message and returns with the state unchanged,
without invoking the validator, the termination condition, or the speaker
selector. -/
theorem c2_start_already_terminated (cfg : Config α σ) (s : ManagerState α σ)
    (messages : Option (List α)) (otm : Bool) (tc : TerminationCondition α σ)
    (hc : cfg.termination_condition = some tc)
    (ht : tc.terminated s.condState = true) :
    (step cfg s (.start messages otm)).state = s ∧
    (step cfg s (.start messages otm)).outQueue =
      [.termination { content := "The group chat has already terminated.", source := cfg.name } none] ∧
    (step cfg s (.start messages otm)).validatorCalls = 0 ∧
    (step cfg s (.start messages otm)).condEvals = 0 ∧
    (step cfg s (.start messages otm)).selectorCalls = 0 ∧
    (step cfg s (.start messages otm)).error = none := by
  have hat : alreadyTerminated cfg s = true := by
    unfold alreadyTerminated; rw [hc]; exact ht
  simp [step, handle_start, hat]

/-- Witness for C2 at a concrete terminated manager. -/
theorem c2_start_already_terminated_witness :
    (step cfgW { stW with condState := true } (.start none true)).outQueue =
      [.termination { content := "The group chat has already terminated.", source := "manager" } none] :=
  (c2_start_already_terminated cfgW { stW with condState := true } none true condNever rfl rfl).2.1

/-- C4: construction fails if and only if the participant topic list has
duplicates, or the topics, names and descriptions lists do not all have equal
length, or the group topic occurs among the participant topics, or a
non-positive maximum turn count is given; every valid configuration
constructs successfully. -/
theorem c4_init_fails_iff (cfg : Config α σ) (cs : σ) :
    isErr (init cfg cs) = true ↔
      (¬ cfg.participant_topic_types.Nodup ∨
       ¬ (cfg.participant_topic_types.length = cfg.participant_names.length ∧
          cfg.participant_topic_types.length = cfg.participant_descriptions.length) ∨
       cfg.group_topic_type ∈ cfg.participant_topic_types ∨
       ∃ m, cfg.max_turns = some m ∧ m ≤ 0) := by
  have hbm : badMax cfg.max_turns = true ↔ ∃ m, cfg.max_turns = some m ∧ m ≤ 0 := by
    cases h : cfg.max_turns with
    | none => simp [badMax]
    | some m => simp [badMax]
  unfold init
  by_cases h1 : badMax cfg.max_turns = true
  · rw [if_pos h1]
    exact iff_of_true rfl (Or.inr (Or.inr (Or.inr (hbm.mp h1))))
  · rw [if_neg h1]
    by_cases h2 : cfg.participant_topic_types.length ≠ cfg.participant_descriptions.length
    · rw [if_pos h2]
      exact iff_of_true rfl (Or.inr (Or.inl (fun hand => h2 hand.2)))
    · rw [if_neg h2]
      push_neg at h2
      by_cases h3 : cfg.participant_topic_types.Nodup
      · rw [if_neg (not_not_intro h3)]
        by_cases h4 : cfg.group_topic_type ∈ cfg.participant_topic_types
        · rw [if_pos h4]
          exact iff_of_true rfl (Or.inr (Or.inr (Or.inl h4)))
        · rw [if_neg h4]
          by_cases h5 : cfg.participant_names.length ≠ cfg.participant_topic_types.length
          · rw [if_pos h5]
            exact iff_of_true rfl (Or.inr (Or.inl (fun hand => h5 hand.1.symm)))
          · rw [if_neg h5]
            push_neg at h5
            refine iff_of_false (by simp [isErr]) ?_
            rintro (h | h | h | ⟨m, hm, hle⟩)
            · exact h h3
            · exact h ⟨h5.symm, h2⟩
            · exact h4 h
            · exact h1 (hbm.mpr ⟨m, hm, hle⟩)
      · rw [if_pos h3]
        exact iff_of_true rfl (Or.inl h3)

/-- Witness for C4: a duplicate-topic configuration is rejected. -/
theorem c4_init_fails_iff_witness :
    isErr (init { cfgW with participant_topic_types := ["tx", "tx"] } false) = true :=
  (c4_init_fails_iff { cfgW with participant_topic_types := ["tx", "tx"] } false).mpr
    (Or.inl (by decide))

/-- C10: a response whose speaker name is not in the active-speaker set raises
an error that is converted into exactly one Termination-with-error event and
re-raised, and the response delta has already been appended to the message
thread before the error occurs. -/
theorem c10_unsolicited_response (cfg : Config α σ) (s : ManagerState α σ)
    (resp : ResponseMsg α)
    (h : nameOf resp ∉ s.active_speakers) :
    (step cfg s (.response resp)).error = some (.removeError (nameOf resp)) ∧
    (step cfg s (.response resp)).outQueue =
      [.termination { content := "An error occurred in the group chat.", source := cfg.name }
        (some (.removeError (nameOf resp)))] ∧
    countTerm (step cfg s (.response resp)).outQueue = 1 ∧
    (step cfg s (.response resp)).state.message_thread = s.message_thread ++ deltaOf resp := by
  simp [step, handle_agent_response, h, countTerm, OutItem.isTermination]

/-- Witness for C10 at a concrete unsolicited response. -/
theorem c10_unsolicited_response_witness :
    (step cfgW stW (.response (.team "Z" [5]))).error = some (.removeError "Z") ∧
    (step cfgW stW (.response (.team "Z" [5]))).state.message_thread = [5] :=
  ⟨(c10_unsolicited_response cfgW stW (.team "Z" [5]) (by simp [stW, nameOf])).1,
   (c10_unsolicited_response cfgW stW (.team "Z" [5]) (by simp [stW, nameOf])).2.2.2⟩


/-- C9: for a Start carrying initial messages handled by a manager that is not
already terminated, the termination condition is evaluated exactly once, over
exactly those initial messages, without incrementing the turn counter; if it
signals a stop, exactly one Termination event carrying that stop message is
enqueued and the speaker selector is never invoked. -/
theorem c9_start_condition (cfg : Config α σ) (s : ManagerState α σ)
    (msgs : List α) (otm : Bool) (tc : TerminationCondition α σ)
    (hc : cfg.termination_condition = some tc)
    (ht : tc.terminated s.condState = false)
    (hv : cfg.validate_group_state (some msgs) = .ok ()) :
    (step cfg s (.start (some msgs) otm)).condEvals = 1 ∧
    (step cfg s (.start (some msgs) otm)).state.current_turn ≤ s.current_turn ∧
    (∀ sm cs, tc.eval s.condState msgs = (some sm, cs) →
      (step cfg s (.start (some msgs) otm)).outQueue.filter OutItem.isTermination =
        [.termination sm none] ∧
      (step cfg s (.start (some msgs) otm)).selectorCalls = 0 ∧
      (step cfg s (.start (some msgs) otm)).state.condState = tc.resetState cs) := by
  have hat : alreadyTerminated cfg s = false := by
    unfold alreadyTerminated; rw [hc]; exact ht
  simp only [step, handle_start, hat, Bool.false_eq_true, if_false, hv]
  cases he : tc.eval s.condState msgs with
  | mk o cs =>
    cases o with
    | some sm =>
      have ha := apply_eval_some cfg
        { s with message_thread := s.message_thread ++ msgs } msgs false tc sm cs hc he
      rw [ha]
      refine ⟨by simp, by simp, ?_⟩
      intro sm2 cs2 he2
      injection he2 with h1 h2
      injection h1 with h1
      subst h1; subst h2
      refine ⟨?_, by simp, by simp⟩
      by_cases ho : otm <;>
        simp [ho, List.filter_append, filterTerm_map_msg, OutItem.isTermination]
    | none =>
      have ha := apply_eval_none cfg
        { s with message_thread := s.message_thread ++ msgs } msgs false tc cs hc he
      rw [ha]
      cases hmr : maxReached cfg s.current_turn with
      | true =>
        obtain ⟨m, hm⟩ : ∃ m, cfg.max_turns = some m := by
          unfold maxReached at hmr
          cases hmx : cfg.max_turns with
          | none => rw [hmx] at hmr; cases hmr
          | some m => exact ⟨m, rfl⟩
        have hge : ((s.current_turn : Int) ≥ m) := by
          unfold maxReached at hmr
          rw [hm] at hmr
          exact of_decide_eq_true hmr
        have hb := applyMax_reached cfg
          { message_thread := s.message_thread ++ msgs, current_turn := s.current_turn,
            active_speakers := s.active_speakers, condState := cs }
          false 1 m hm (by simpa using hge)
        rw [hb]
        refine ⟨by simp, by simp, ?_⟩
        intro sm2 cs2 he2
        injection he2 with h1 h2
        cases h1
      | false =>
        have hb := applyMax_not_reached cfg
          { message_thread := s.message_thread ++ msgs, current_turn := s.current_turn,
            active_speakers := s.active_speakers, condState := cs }
          false 1 (by simpa using hmr)
        rw [hb]
        refine ⟨by simp, ?_, ?_⟩
        · simp [trans_turn]
        · intro sm2 cs2 he2
          injection he2 with h1 h2
          cases h1


/-- Witness for C9: a Start whose messages trigger the stop-on-seven condition
evaluates the condition once and never calls the selector. -/
theorem c9_start_condition_witness :
    (step cfg9 stW (.start (some [7]) true)).condEvals = 1 ∧
    (step cfg9 stW (.start (some [7]) true)).selectorCalls = 0 :=
  ⟨(c9_start_condition cfg9 stW [7] true condOnSeven rfl rfl rfl).1,
   ((c9_start_condition cfg9 stW [7] true condOnSeven rfl rfl rfl).2.2
      { content := "seven", source := "cond" } true rfl).2.1⟩

theorem response_complete (cfg : Config α σ) (s : ManagerState α σ) (resp : ResponseMsg α)
    (hmem : nameOf resp ∈ s.active_speakers)
    (herase : s.active_speakers.erase (nameOf resp) = []) :
    step cfg s (.response resp) =
      (let delta := deltaOf resp
       let s2 : ManagerState α σ :=
         { message_thread := s.message_thread ++ delta, current_turn := s.current_turn,
           active_speakers := [], condState := s.condState }
       let a := applyTerminationCondition cfg s2 delta true
       if a.stop then
         { state := a.state, outQueue := a.outQueue, published := a.published,
           selectorCalls := 0, condEvals := a.condEvals, validatorCalls := 0, error := none }
       else
         let t := transitionToNextSpeakers cfg a.state
         match t.error with
         | some e =>
           { state := t.state,
             outQueue := a.outQueue ++ t.outQueue
               ++ [.termination { content := "An error occurred in the group chat.", source := cfg.name } (some e)],
             published := a.published ++ t.published
               ++ [.termination cfg.output_topic_type
                    { content := "An error occurred in the group chat.", source := cfg.name }
                    (some e)],
             selectorCalls := 1, condEvals := a.condEvals, validatorCalls := 0,
             error := some e }
         | none =>
           { state := t.state, outQueue := a.outQueue ++ t.outQueue,
             published := a.published ++ t.published,
             selectorCalls := 1, condEvals := a.condEvals, validatorCalls := 0,
             error := none }) := by
  simp only [step, handle_agent_response]
  rw [if_pos hmem]
  simp only [herase, List.length_nil, Nat.lt_irrefl, if_false]

/-- C6: when a round completes, the termination condition does not signal, and
the incremented turn counter reaches the configured maximum, the manager
enqueues exactly one Termination event whose stop message content is exactly
the synthesized maximum-turns text, zeroes the turn counter, resets the
termination condition when one is configured, publishes no respond-now
request, and performs no further speaker transition. -/
theorem c6_max_turns_stop (cfg : Config α σ) (s : ManagerState α σ)
    (resp : ResponseMsg α) (m : Int)
    (hmem : nameOf resp ∈ s.active_speakers)
    (herase : s.active_speakers.erase (nameOf resp) = [])
    (hcs : condStops cfg s.condState (deltaOf resp) = false)
    (hm : cfg.max_turns = some m)
    (hge : (s.current_turn : Int) + 1 ≥ m) :
    (step cfg s (.response resp)).outQueue =
      [.termination { content := "Maximum number of turns " ++ toString m ++ " reached.", source := cfg.name } none] ∧
    (step cfg s (.response resp)).state.current_turn = 0 ∧
    (step cfg s (.response resp)).selectorCalls = 0 ∧
    (step cfg s (.response resp)).published.filter Published.isRequestPublish = [] ∧
    (∀ tc, cfg.termination_condition = some tc →
      (step cfg s (.response resp)).state.condState =
        tc.resetState (tc.eval s.condState (deltaOf resp)).2) := by
  rw [response_complete cfg s resp hmem herase]
  simp only []
  cases hc : cfg.termination_condition with
  | none =>
    have ha := apply_nocond cfg
      { message_thread := s.message_thread ++ deltaOf resp, current_turn := s.current_turn,
        active_speakers := [], condState := s.condState }
      (deltaOf resp) true hc
    rw [ha]
    have hb := applyMax_reached cfg
      { message_thread := s.message_thread ++ deltaOf resp, current_turn := s.current_turn,
        active_speakers := [], condState := s.condState }
      true 0 m hm (by show ((s.current_turn + 1 : Nat) : Int) ≥ m; push_cast; omega)
    rw [hb]
    refine ⟨by simp, by simp, by simp, by simp [Published.isRequestPublish], ?_⟩
    intro tc2 hc2
    cases hc2
  | some tc =>
    have hnone : (tc.eval s.condState (deltaOf resp)).1 = none := by
      unfold condStops at hcs
      simp only [hc] at hcs
      cases ho : (tc.eval s.condState (deltaOf resp)).1 with
      | none => rfl
      | some x => rw [ho] at hcs; simp at hcs
    cases he : tc.eval s.condState (deltaOf resp) with
    | mk o cs =>
      rw [he] at hnone
      subst hnone
      have ha := apply_eval_none cfg
        { message_thread := s.message_thread ++ deltaOf resp, current_turn := s.current_turn,
          active_speakers := [], condState := s.condState }
        (deltaOf resp) true tc cs hc he
      rw [ha]
      have hb := applyMax_reached cfg
        { message_thread := s.message_thread ++ deltaOf resp, current_turn := s.current_turn,
          active_speakers := [], condState := cs }
        true 1 m hm (by show ((s.current_turn + 1 : Nat) : Int) ≥ m; push_cast; omega)
      rw [hb]
      refine ⟨by simp, by simp, by simp, by simp [Published.isRequestPublish], ?_⟩
      intro tc2 hc2
      injection hc2 with hc2
      subst hc2
      simp [hc, he]

/-- Witness for C6: with max_turns one, the only active speaker responding
yields exactly the maximum-turns Termination event. -/
theorem c6_max_turns_stop_witness :
    (step cfgMax1 { stW with active_speakers := ["X"] } (.response (.team "X" [3]))).outQueue =
      [.termination { content := "Maximum number of turns 1 reached.", source := "manager" }
        none] ∧
    (step cfgMax1 { stW with active_speakers := ["X"] }
      (.response (.team "X" [3]))).selectorCalls = 0 :=
  ⟨(c6_max_turns_stop cfgMax1 { stW with active_speakers := ["X"] } (.team "X" [3]) 1
      (by simp [nameOf, stW]) (by simp [nameOf, stW]) rfl rfl (by norm_num)).1,
   (c6_max_turns_stop cfgMax1 { stW with active_speakers := ["X"] } (.team "X" [3]) 1
      (by simp [nameOf, stW]) (by simp [nameOf, stW]) rfl rfl (by norm_num)).2.2.1⟩


theorem response_pending (cfg : Config α σ) (s : ManagerState α σ) (resp : ResponseMsg α)
    (hmem : nameOf resp ∈ s.active_speakers)
    (herase : s.active_speakers.erase (nameOf resp) ≠ []) :
    step cfg s (.response resp) =
      { state :=
          { message_thread := s.message_thread ++ deltaOf resp,
            current_turn := s.current_turn,
            active_speakers := s.active_speakers.erase (nameOf resp),
            condState := s.condState },
        outQueue := [], published := [], selectorCalls := 0, condEvals := 0,
        validatorCalls := 0, error := none } := by
  simp only [step, handle_agent_response]
  rw [if_pos hmem]
  have hlen : 0 < (s.active_speakers.erase (nameOf resp)).length := by
    cases hL : s.active_speakers.erase (nameOf resp) with
    | nil => exact absurd hL herase
    | cons x l => simp
  simp [hlen]

theorem apply_stop_of_max (cfg : Config α σ) (s : ManagerState α σ) (delta : List α)
    (m : Int) (hm : cfg.max_turns = some m)
    (hge : (s.current_turn : Int) + 1 ≥ m) :
    (applyTerminationCondition cfg s delta true).stop = true ∧
    countTerm (applyTerminationCondition cfg s delta true).outQueue = 1 := by
  cases hc : cfg.termination_condition with
  | none =>
    rw [apply_nocond cfg s delta true hc]
    rw [applyMax_reached cfg s true 0 m hm
      (by show ((s.current_turn + 1 : Nat) : Int) ≥ m; push_cast; omega)]
    simp [countTerm, OutItem.isTermination]
  | some tc =>
    cases he : tc.eval s.condState delta with
    | mk o cs =>
      cases o with
      | some sm =>
        rw [apply_eval_some cfg s delta true tc sm cs hc he]
        simp [countTerm, OutItem.isTermination]
      | none =>
        rw [apply_eval_none cfg s delta true tc cs hc he]
        rw [applyMax_reached cfg { s with condState := cs } true 1 m hm
          (by show ((s.current_turn + 1 : Nat) : Int) ≥ m; push_cast; omega)]
        simp [countTerm, OutItem.isTermination]

theorem step_turn_le_start (cfg : Config α σ) (s : ManagerState α σ)
    (msgs : Option (List α)) (otm : Bool) :
    (step cfg s (.start msgs otm)).state.current_turn ≤ s.current_turn := by
  unfold step handle_start
  by_cases hat : alreadyTerminated cfg s
  · simp [hat]
  · simp only [hat, Bool.false_eq_true, if_false]
    cases hv : cfg.validate_group_state msgs with
    | error e => simp
    | ok u =>
      cases u
      cases msgs with
      | none => simp [trans_turn]
      | some ms =>
        rcases apply_cases cfg
            { message_thread := s.message_thread ++ ms, current_turn := s.current_turn,
              active_speakers := s.active_speakers, condState := s.condState } ms false
          with ⟨h1, h2, h3, h4⟩ | ⟨h1, h2, h3, h4⟩
        · simp only [h1, if_true]
          simp [h2]
        · simp only [h1, Bool.false_eq_true, if_false]
          simp only [trans_turn]
          simp at h2
          simp [h2]

theorem step_turn_response (cfg : Config α σ) (s : ManagerState α σ) (resp : ResponseMsg α) :
    (step cfg s (.response resp)).state.current_turn ≤ s.current_turn ∨
    (nameOf resp ∈ s.active_speakers ∧ s.active_speakers.erase (nameOf resp) = [] ∧
     (step cfg s (.response resp)).state.current_turn = s.current_turn + 1) := by
  by_cases hmem : nameOf resp ∈ s.active_speakers
  · by_cases herase : s.active_speakers.erase (nameOf resp) = []
    · rw [response_complete cfg s resp hmem herase]
      simp only []
      rcases apply_cases cfg
          { message_thread := s.message_thread ++ deltaOf resp, current_turn := s.current_turn,
            active_speakers := [], condState := s.condState } (deltaOf resp) true
        with ⟨h1, h2, h3, h4⟩ | ⟨h1, h2, h3, h4⟩
      · left
        simp only [h1, if_true]
        simp [h2]
      · right
        refine ⟨hmem, herase, ?_⟩
        simp only [h1, Bool.false_eq_true, if_false]
        simp at h2
        cases ht : (transitionToNextSpeakers cfg
            (applyTerminationCondition cfg
              { message_thread := s.message_thread ++ deltaOf resp,
                current_turn := s.current_turn, active_speakers := [],
                condState := s.condState } (deltaOf resp) true).state).error with
        | some e => simp [ht, trans_turn, h2]
        | none => simp [ht, trans_turn, h2]
    · rw [response_pending cfg s resp hmem herase]
      left
      simp
  · left
    simp only [step, handle_agent_response]
    rw [if_neg hmem]

/-- C5: the turn counter increases only in a response-handling step whose
removal empties the active-speaker set, and then by exactly one; and whenever
such a completing step pushes the counter to the configured maximum, a
Termination event is enqueued in that same step. -/
theorem c5_turn_counter (cfg : Config α σ) (s : ManagerState α σ) (ib : Inbound α) :
    ((step cfg s ib).state.current_turn > s.current_turn →
      ∃ resp, ib = .response resp ∧ nameOf resp ∈ s.active_speakers ∧
        s.active_speakers.erase (nameOf resp) = [] ∧
        (step cfg s ib).state.current_turn = s.current_turn + 1) ∧
    (∀ resp m, ib = .response resp → cfg.max_turns = some m →
      nameOf resp ∈ s.active_speakers → s.active_speakers.erase (nameOf resp) = [] →
      (s.current_turn : Int) + 1 ≥ m →
      countTerm (step cfg s ib).outQueue = 1) := by
  constructor
  · intro hgt
    cases ib with
    | start msgs otm => exact absurd hgt (by have := step_turn_le_start cfg s msgs otm; omega)
    | response resp =>
      rcases step_turn_response cfg s resp with h | ⟨h1, h2, h3⟩
      · exact absurd hgt (by omega)
      · exact ⟨resp, rfl, h1, h2, h3⟩
    | relay x => exact absurd hgt (by simp [step])
    | errorMsg e => exact absurd hgt (by simp [step])
    | pause => exact absurd hgt (by simp [step])
    | resume => exact absurd hgt (by simp [step])
  · intro resp m hib hm hmem herase hge
    subst hib
    rw [response_complete cfg s resp hmem herase]
    simp only []
    obtain ⟨h1, h2⟩ := apply_stop_of_max cfg
      { message_thread := s.message_thread ++ deltaOf resp, current_turn := s.current_turn,
        active_speakers := [], condState := s.condState } (deltaOf resp) m hm hge
    simp only [h1, if_true]
    exact h2

/-- Witness for C5: a completing response at the turn limit enqueues one
Termination event. -/
theorem c5_turn_counter_witness :
    countTerm (step cfgMax1 { stW with active_speakers := ["X"] }
      (.response (.team "X" [3]))).outQueue = 1 :=
  (c5_turn_counter cfgMax1 { stW with active_speakers := ["X"] }
    (.response (.team "X" [3]))).2 (.team "X" [3]) 1 rfl rfl
    (by simp [nameOf, stW]) (by simp [nameOf, stW]) (by norm_num)


theorem response_complete2 (cfg : Config α σ) (s : ManagerState α σ) (resp : ResponseMsg α)
    (hmem : nameOf resp ∈ s.active_speakers)
    (herase : s.active_speakers.erase (nameOf resp) = []) :
    step cfg s (.response resp) =
      afterComplete cfg (applyTerminationCondition cfg
        { message_thread := s.message_thread ++ deltaOf resp, current_turn := s.current_turn,
          active_speakers := [], condState := s.condState } (deltaOf resp) true) := by
  rw [response_complete cfg s resp hmem herase]
  unfold afterComplete
  rfl

theorem afterComplete_stop (cfg : Config α σ) (a : ApplyResult α σ) (h : a.stop = true) :
    afterComplete cfg a =
      { state := a.state, outQueue := a.outQueue, published := a.published,
        selectorCalls := 0, condEvals := a.condEvals, validatorCalls := 0, error := none } := by
  unfold afterComplete
  rw [h]
  rfl

theorem afterComplete_nostop (cfg : Config α σ) (a : ApplyResult α σ) (h : a.stop = false) :
    (afterComplete cfg a).selectorCalls = 1 ∧
    (afterComplete cfg a).state.message_thread = a.state.message_thread ∧
    (afterComplete cfg a).error = (transitionToNextSpeakers cfg a.state).error ∧
    countTerm (afterComplete cfg a).outQueue = countTerm a.outQueue +
      errWeight (transitionToNextSpeakers cfg a.state).error := by
  unfold afterComplete
  rw [h]
  simp only [Bool.false_eq_true, if_false]
  cases ht : (transitionToNextSpeakers cfg a.state).error with
  | some e =>
    obtain ⟨hs, ho, hp⟩ := trans_err cfg a.state e ht
    simp [ht, ho, hs, countTerm_append, countTerm, OutItem.isTermination, trans_thread, errWeight]
  | none =>
    simp [ht, countTerm_append, trans_countTerm, trans_thread, errWeight]

theorem response_transitions (cfg : Config α σ) (s : ManagerState α σ) (resp : ResponseMsg α)
    (hmem : nameOf resp ∈ s.active_speakers)
    (herase : s.active_speakers.erase (nameOf resp) = [])
    (hcs : condStops cfg s.condState (deltaOf resp) = false)
    (hmax : maxReached cfg (s.current_turn + 1) = false) :
    (step cfg s (.response resp)).selectorCalls = 1 ∧
    (step cfg s (.response resp)).state.message_thread = s.message_thread ++ deltaOf resp := by
  rw [response_complete2 cfg s resp hmem herase]
  have hstop : (applyTerminationCondition cfg
      { message_thread := s.message_thread ++ deltaOf resp, current_turn := s.current_turn,
        active_speakers := [], condState := s.condState } (deltaOf resp) true).stop = false ∧
      (applyTerminationCondition cfg
      { message_thread := s.message_thread ++ deltaOf resp, current_turn := s.current_turn,
        active_speakers := [], condState := s.condState } (deltaOf resp) true).state.message_thread =
        s.message_thread ++ deltaOf resp := by
    cases hc : cfg.termination_condition with
    | none =>
      rw [apply_nocond cfg _ (deltaOf resp) true hc]
      rw [applyMax_not_reached cfg _ true 0 (by simpa using hmax)]
      simp
    | some tc =>
      have hnone : (tc.eval s.condState (deltaOf resp)).1 = none := by
        unfold condStops at hcs
        simp only [hc] at hcs
        cases ho : (tc.eval s.condState (deltaOf resp)).1 with
        | none => rfl
        | some x => rw [ho] at hcs; simp at hcs
      cases he : tc.eval s.condState (deltaOf resp) with
      | mk o cs =>
        rw [he] at hnone
        subst hnone
        rw [apply_eval_none cfg
          { message_thread := s.message_thread ++ deltaOf resp, current_turn := s.current_turn,
            active_speakers := [], condState := s.condState } (deltaOf resp) true tc cs hc he]
        rw [applyMax_not_reached cfg _ true 1 (by simpa using hmax)]
        simp
  obtain ⟨hb, ht⟩ := afterComplete_nostop cfg _ hstop.1
  exact ⟨hb, by rw [ht.1, hstop.2]⟩

/-- C7: with participants a and b both active in a round, for either arrival
order the first response only appends its delta and removes its sender (no
termination evaluation, no selector call, nothing enqueued), and the second
response appends its delta in arrival order and triggers exactly one selector
invocation. -/
theorem c7_two_active_speakers (cfg : Config α σ) (s : ManagerState α σ)
    (a b : String) (resp₁ resp₂ : ResponseMsg α)
    (hn1 : nameOf resp₁ = a) (hn2 : nameOf resp₂ = b) (hab : a ≠ b)
    (hact : s.active_speakers = [a, b])
    (hc1 : condStops cfg s.condState (deltaOf resp₁) = false)
    (hc2 : condStops cfg s.condState (deltaOf resp₂) = false)
    (hmax : maxReached cfg (s.current_turn + 1) = false) :
    ((step cfg s (.response resp₁)).selectorCalls = 0 ∧
     (step cfg s (.response resp₁)).condEvals = 0 ∧
     (step cfg s (.response resp₁)).outQueue = [] ∧
     (step cfg s (.response resp₁)).state.message_thread = s.message_thread ++ deltaOf resp₁ ∧
     (step cfg s (.response resp₁)).state.active_speakers = [b] ∧
     (step cfg (step cfg s (.response resp₁)).state (.response resp₂)).state.message_thread =
       s.message_thread ++ deltaOf resp₁ ++ deltaOf resp₂ ∧
     (step cfg (step cfg s (.response resp₁)).state (.response resp₂)).selectorCalls = 1) ∧
    ((step cfg s (.response resp₂)).selectorCalls = 0 ∧
     (step cfg s (.response resp₂)).condEvals = 0 ∧
     (step cfg s (.response resp₂)).outQueue = [] ∧
     (step cfg s (.response resp₂)).state.message_thread = s.message_thread ++ deltaOf resp₂ ∧
     (step cfg s (.response resp₂)).state.active_speakers = [a] ∧
     (step cfg (step cfg s (.response resp₂)).state (.response resp₁)).state.message_thread =
       s.message_thread ++ deltaOf resp₂ ++ deltaOf resp₁ ∧
     (step cfg (step cfg s (.response resp₂)).state (.response resp₁)).selectorCalls = 1) := by
  subst hn1
  subst hn2
  have hb2 : (nameOf resp₁ == nameOf resp₂) = false := beq_eq_false_iff_ne.mpr hab
  have hm1 : nameOf resp₁ ∈ s.active_speakers := by rw [hact]; simp
  have he1 : s.active_speakers.erase (nameOf resp₁) = [nameOf resp₂] := by
    rw [hact]; simp
  have hm2 : nameOf resp₂ ∈ s.active_speakers := by rw [hact]; simp
  have he2 : s.active_speakers.erase (nameOf resp₂) = [nameOf resp₁] := by
    rw [hact]
    simp [List.erase_cons, hb2]
  constructor
  · rw [response_pending cfg s resp₁ hm1 (by rw [he1]; simp)]
    simp only [he1]
    obtain ⟨hq1, hq2⟩ := response_transitions cfg
      { message_thread := s.message_thread ++ deltaOf resp₁, current_turn := s.current_turn,
        active_speakers := [nameOf resp₂], condState := s.condState }
      resp₂ (by simp) (by simp) hc2 hmax
    exact ⟨by trivial, by trivial, by trivial, by trivial, by trivial, by rw [hq2], hq1⟩
  · rw [response_pending cfg s resp₂ hm2 (by rw [he2]; simp)]
    simp only [he2]
    obtain ⟨hq1, hq2⟩ := response_transitions cfg
      { message_thread := s.message_thread ++ deltaOf resp₂, current_turn := s.current_turn,
        active_speakers := [nameOf resp₁], condState := s.condState }
      resp₁ (by simp) (by simp) hc1 hmax
    exact ⟨by trivial, by trivial, by trivial, by trivial, by trivial, by rw [hq2], hq1⟩

/-- Witness for C7 with participants X and Y both active. -/
theorem c7_two_active_speakers_witness :
    (step cfgW { stW with active_speakers := ["X", "Y"] }
      (.response (.team "X" [1]))).state.active_speakers = ["Y"] ∧
    (step cfgW (step cfgW { stW with active_speakers := ["X", "Y"] }
      (.response (.team "X" [1]))).state (.response (.team "Y" [2]))).selectorCalls = 1 :=
  ⟨(c7_two_active_speakers cfgW { stW with active_speakers := ["X", "Y"] } "X" "Y"
      (.team "X" [1]) (.team "Y" [2]) rfl rfl (by decide) rfl rfl rfl rfl).1.2.2.2.2.1,
   (c7_two_active_speakers cfgW { stW with active_speakers := ["X", "Y"] } "X" "Y"
      (.team "X" [1]) (.team "Y" [2]) rfl rfl (by decide) rfl rfl rfl rfl).1.2.2.2.2.2.2⟩

theorem trans_unknown (cfg : Config α σ) (s : ManagerState α σ) (sel : SpeakerSel)
    (bad : String)
    (hsel : cfg.select_speaker s.message_thread = .ok sel)
    (hbad : (normalizeSel sel).find? (fun n => (lookupTopic cfg n).isNone) = some bad) :
    transitionToNextSpeakers cfg s =
      { state := s, outQueue := [], published := [], error := some (.unknownSpeaker bad) } := by
  unfold transitionToNextSpeakers
  simp only [hsel, hbad]

theorem apply_nostop (cfg : Config α σ) (s : ManagerState α σ) (delta : List α)
    (hcs : condStops cfg s.condState delta = false)
    (hmax : maxReached cfg (s.current_turn + 1) = false) :
    (applyTerminationCondition cfg s delta true).stop = false ∧
    (applyTerminationCondition cfg s delta true).state.message_thread = s.message_thread ∧
    (applyTerminationCondition cfg s delta true).state.active_speakers = s.active_speakers ∧
    (applyTerminationCondition cfg s delta true).outQueue = [] ∧
    (applyTerminationCondition cfg s delta true).published = [] := by
  cases hc : cfg.termination_condition with
  | none =>
    rw [apply_nocond cfg s delta true hc]
    rw [applyMax_not_reached cfg s true 0 (by simpa using hmax)]
    simp
  | some tc =>
    have hnone : (tc.eval s.condState delta).1 = none := by
      unfold condStops at hcs
      simp only [hc] at hcs
      cases ho : (tc.eval s.condState delta).1 with
      | none => rfl
      | some x => rw [ho] at hcs; simp at hcs
    cases he : tc.eval s.condState delta with
    | mk o cs =>
      rw [he] at hnone
      subst hnone
      rw [apply_eval_none cfg s delta true tc cs hc he]
      rw [applyMax_not_reached cfg { s with condState := cs } true 1 (by simpa using hmax)]
      simp

theorem trans_select_err (cfg : Config α σ) (s : ManagerState α σ) (e : GCError)
    (hsel : cfg.select_speaker s.message_thread = .error e) :
    transitionToNextSpeakers cfg s =
      { state := s, outQueue := [], published := [], error := some e } := by
  unfold transitionToNextSpeakers
  simp only [hsel]

theorem afterComplete_nostop_state (cfg : Config α σ) (a : ApplyResult α σ)
    (h : a.stop = false) :
    (afterComplete cfg a).state.condState = a.state.condState := by
  unfold afterComplete
  rw [h]
  simp only [Bool.false_eq_true, if_false]
  cases ht : (transitionToNextSpeakers cfg a.state).error with
  | some e => simp only [ht]; exact trans_condState cfg a.state
  | none => simp only [ht]; exact trans_condState cfg a.state

theorem apply_stop_of_cond (cfg : Config α σ) (s : ManagerState α σ) (delta : List α)
    (inc : Bool) (hcs : condStops cfg s.condState delta = true) :
    (applyTerminationCondition cfg s delta inc).stop = true ∧
    countTerm (applyTerminationCondition cfg s delta inc).outQueue = 1 := by
  unfold condStops at hcs
  cases hc : cfg.termination_condition with
  | none => rw [hc] at hcs; simp at hcs
  | some tc =>
    simp only [hc] at hcs
    cases he : tc.eval s.condState delta with
    | mk o cs =>
      rw [he] at hcs
      cases o with
      | none => simp at hcs
      | some sm =>
        rw [apply_eval_some cfg s delta inc tc sm cs hc he]
        simp [countTerm, OutItem.isTermination]

theorem apply_nostop_start (cfg : Config α σ) (s : ManagerState α σ) (delta : List α)
    (hcs : condStops cfg s.condState delta = false)
    (hmax : maxReached cfg s.current_turn = false) :
    (applyTerminationCondition cfg s delta false).stop = false ∧
    (applyTerminationCondition cfg s delta false).state.message_thread = s.message_thread ∧
    (applyTerminationCondition cfg s delta false).state.active_speakers = s.active_speakers ∧
    (applyTerminationCondition cfg s delta false).outQueue = [] ∧
    (applyTerminationCondition cfg s delta false).published = [] := by
  cases hc : cfg.termination_condition with
  | none =>
    rw [apply_nocond cfg s delta false hc]
    rw [applyMax_not_reached cfg s false 0 (by simpa using hmax)]
    simp
  | some tc =>
    have hnone : (tc.eval s.condState delta).1 = none := by
      unfold condStops at hcs
      simp only [hc] at hcs
      cases ho : (tc.eval s.condState delta).1 with
      | none => rfl
      | some x => rw [ho] at hcs; simp at hcs
    cases he : tc.eval s.condState delta with
    | mk o cs =>
      rw [he] at hnone
      subst hnone
      rw [apply_eval_none cfg s delta false tc cs hc he]
      rw [applyMax_not_reached cfg { s with condState := cs } false 1 (by simpa using hmax)]
      simp

/-- C3 counterexample: during Start handling an unknown selector name raises
the error to the runtime but enqueues no Termination event at all, refuting
the claim that every unknown-speaker transition enqueues exactly one
Termination-with-error event. -/
theorem c3_counterexample :
    (step cfgZ stW (.start none true)).error = some (.unknownSpeaker "Z") ∧
    countTerm (step cfgZ stW (.start none true)).outQueue = 0 := ⟨rfl, rfl⟩

/-- C3 (amended): an unknown selector name aborts the transition before any
respond-now publication or active-speaker insertion; when reached from round
completion in response handling the error is converted into exactly one
Termination-with-error event and re-raised, while when reached from Start
handling — with or without initial messages — the error is re-raised with no
Termination event enqueued. -/
theorem c3_unknown_speaker :
    (∀ (cfg : Config α σ) (s : ManagerState α σ) (resp : ResponseMsg α)
       (sel : SpeakerSel) (bad : String),
      nameOf resp ∈ s.active_speakers →
      s.active_speakers.erase (nameOf resp) = [] →
      condStops cfg s.condState (deltaOf resp) = false →
      maxReached cfg (s.current_turn + 1) = false →
      cfg.select_speaker (s.message_thread ++ deltaOf resp) = .ok sel →
      (normalizeSel sel).find? (fun n => (lookupTopic cfg n).isNone) = some bad →
      (step cfg s (.response resp)).error = some (.unknownSpeaker bad) ∧
      (step cfg s (.response resp)).outQueue =
        [.termination { content := "An error occurred in the group chat.", source := cfg.name }
          (some (.unknownSpeaker bad))] ∧
      (step cfg s (.response resp)).published.filter Published.isRequestPublish = [] ∧
      (step cfg s (.response resp)).state.active_speakers = []) ∧
    (∀ (cfg : Config α σ) (s : ManagerState α σ) (msgs : Option (List α)) (otm : Bool)
       (sel : SpeakerSel) (bad : String),
      alreadyTerminated cfg s = false →
      cfg.validate_group_state msgs = .ok () →
      (∀ ms, msgs = some ms → condStops cfg s.condState ms = false) →
      (∀ ms, msgs = some ms → maxReached cfg s.current_turn = false) →
      cfg.select_speaker (match msgs with
        | some ms => s.message_thread ++ ms
        | none => s.message_thread) = .ok sel →
      (normalizeSel sel).find? (fun n => (lookupTopic cfg n).isNone) = some bad →
      (step cfg s (.start msgs otm)).error = some (.unknownSpeaker bad) ∧
      countTerm (step cfg s (.start msgs otm)).outQueue = 0 ∧
      (step cfg s (.start msgs otm)).published.filter Published.isRequestPublish = [] ∧
      (step cfg s (.start msgs otm)).state.active_speakers = s.active_speakers) := by
  constructor
  · intro cfg s resp sel bad hmem herase hcs hmax hsel hbad
    rw [response_complete2 cfg s resp hmem herase]
    obtain ⟨ha1, ha2, ha3, ha4, ha5⟩ := apply_nostop cfg
      { message_thread := s.message_thread ++ deltaOf resp, current_turn := s.current_turn,
        active_speakers := [], condState := s.condState } (deltaOf resp) hcs hmax
    have htr := trans_unknown cfg
      (applyTerminationCondition cfg
        { message_thread := s.message_thread ++ deltaOf resp, current_turn := s.current_turn,
          active_speakers := [], condState := s.condState } (deltaOf resp) true).state
      sel bad (by rw [ha2]; exact hsel) hbad
    unfold afterComplete
    rw [ha1]
    simp only [Bool.false_eq_true, if_false, htr, ha4, ha5]
    refine ⟨by trivial, by simp, ?_, ?_⟩
    · simp [Published.isRequestPublish]
    · rw [ha3]
  · intro cfg s msgs otm sel bad hat hv hcond hmaxh hsel hbad
    cases msgs with
    | none =>
      simp only [step, handle_start, hat, Bool.false_eq_true, if_false, hv]
      have htr := trans_unknown cfg s sel bad hsel hbad
      rw [htr]
      exact ⟨rfl, rfl, rfl, rfl⟩
    | some ms =>
      have hcs := hcond ms rfl
      have hmax := hmaxh ms rfl
      simp only [step, handle_start, hat, Bool.false_eq_true, if_false, hv]
      obtain ⟨ha1, ha2, ha3, ha4, ha5⟩ := apply_nostop_start cfg
        { message_thread := s.message_thread ++ ms, current_turn := s.current_turn,
          active_speakers := s.active_speakers, condState := s.condState } ms hcs hmax
      have htr := trans_unknown cfg
        (applyTerminationCondition cfg
          { message_thread := s.message_thread ++ ms, current_turn := s.current_turn,
            active_speakers := s.active_speakers, condState := s.condState } ms false).state
        sel bad (by rw [ha2]; exact hsel) hbad
      simp only [ha1, Bool.false_eq_true, if_false, htr, ha4, ha5]
      have h5 : countTerm (if otm = true then ms.map OutItem.msg else []) = 0 := by
        by_cases ho : otm = true
        · rw [if_pos ho]; exact countTerm_map_msg ms
        · rw [if_neg ho]; rfl
      refine ⟨by trivial, ?_, ?_, ?_⟩
      · rw [countTerm_append, countTerm_append, h5]
        simp [countTerm]
      · simp [Published.isRequestPublish]
      · rw [ha3]

/-- Witness for the amended C3 on the response path. -/
theorem c3_unknown_speaker_witness :
    (step cfgZresp { stW with active_speakers := ["X"] }
      (.response (.team "X" [3]))).error = some (.unknownSpeaker "Z") ∧
    countTerm (step cfgZresp { stW with active_speakers := ["X"] }
      (.response (.team "X" [3]))).outQueue = 1 :=
  ⟨(c3_unknown_speaker.1 cfgZresp { stW with active_speakers := ["X"] } (.team "X" [3])
      (.one "Z") "Z" (by simp [nameOf, stW]) (by simp [nameOf, stW]) rfl rfl rfl rfl).1,
   by rw [(c3_unknown_speaker.1 cfgZresp { stW with active_speakers := ["X"] } (.team "X" [3])
      (.one "Z") "Z" (by simp [nameOf, stW]) (by simp [nameOf, stW]) rfl rfl rfl rfl).2.1]
      rfl⟩

theorem errWeight_le_one (o : Option GCError) : errWeight o ≤ 1 := by
  cases o <;> simp [errWeight]

theorem errWeight_of_isSome (o : Option GCError) (h : o.isSome = true) : errWeight o = 1 := by
  cases o with
  | none => simp at h
  | some e => rfl

theorem start_count (cfg : Config α σ) (s : ManagerState α σ)
    (msgs : Option (List α)) (otm : Bool) :
    countTerm (step cfg s (.start msgs otm)).outQueue ≤ 1 ∧
    ((step cfg s (.start msgs otm)).error.isSome = true →
      countTerm (step cfg s (.start msgs otm)).outQueue = 0) := by
  simp only [step, handle_start]
  by_cases hat : alreadyTerminated cfg s
  · simp [hat, countTerm, OutItem.isTermination]
  · simp only [hat, Bool.false_eq_true, if_false]
    cases hv : cfg.validate_group_state msgs with
    | error e => simp [countTerm]
    | ok u =>
      cases u
      cases msgs with
      | none =>
        constructor
        · simp [trans_countTerm]
        · intro h
          simp [trans_countTerm]
      | some ms =>
        rcases apply_cases cfg
            { message_thread := s.message_thread ++ ms, current_turn := s.current_turn,
              active_speakers := s.active_speakers, condState := s.condState } ms false
          with ⟨h1, h2, h3, h4⟩ | ⟨h1, h2, h3, h4⟩
        · simp only [h1, if_true]
          have h5 : countTerm (if otm = true then ms.map OutItem.msg else []) = 0 := by
            by_cases ho : otm = true
            · rw [if_pos ho]; exact countTerm_map_msg ms
            · rw [if_neg ho]; rfl
          constructor
          · rw [countTerm_append, h5, h3]
          · intro h
            simp at h
        · simp only [h1, Bool.false_eq_true, if_false]
          have h5 : countTerm (if otm = true then ms.map OutItem.msg else []) = 0 := by
            by_cases ho : otm = true
            · rw [if_pos ho]; exact countTerm_map_msg ms
            · rw [if_neg ho]; rfl
          constructor
          · rw [countTerm_append, countTerm_append, h5, h3, trans_countTerm]
            simp [countTerm]
          · intro h
            rw [countTerm_append, countTerm_append, h5, h3, trans_countTerm]
            simp [countTerm]

theorem response_count (cfg : Config α σ) (s : ManagerState α σ) (resp : ResponseMsg α) :
    countTerm (step cfg s (.response resp)).outQueue ≤ 1 ∧
    ((step cfg s (.response resp)).error.isSome = true →
      countTerm (step cfg s (.response resp)).outQueue = 1) := by
  by_cases hmem : nameOf resp ∈ s.active_speakers
  · by_cases herase : s.active_speakers.erase (nameOf resp) = []
    · rw [response_complete2 cfg s resp hmem herase]
      rcases apply_cases cfg
          { message_thread := s.message_thread ++ deltaOf resp, current_turn := s.current_turn,
            active_speakers := [], condState := s.condState } (deltaOf resp) true
        with ⟨h1, h2, h3, h4⟩ | ⟨h1, h2, h3, h4⟩
      · rw [afterComplete_stop cfg _ h1]
        constructor
        · simp [h3]
        · intro h
          simp at h
      · obtain ⟨hb1, hb2, hb3, hb4⟩ := afterComplete_nostop cfg _ h1
        constructor
        · rw [hb4, h3]
          have := errWeight_le_one (transitionToNextSpeakers cfg
            (applyTerminationCondition cfg
              { message_thread := s.message_thread ++ deltaOf resp,
                current_turn := s.current_turn, active_speakers := [],
                condState := s.condState } (deltaOf resp) true).state).error
          simp [countTerm]
          omega
        · intro h
          rw [hb3] at h
          rw [hb4, h3, errWeight_of_isSome _ h]
          simp [countTerm]
    · rw [response_pending cfg s resp hmem herase]
      simp [countTerm]
  · simp only [step, handle_agent_response]
    rw [if_neg hmem]
    simp [countTerm, OutItem.isTermination]

/-- C1 counterexample: a validator failure during Start handling re-raises the
error with zero Termination events enqueued, refuting the claim that every
terminal path enqueues exactly one Termination event. -/
theorem c1_counterexample :
    (step cfgV stW (.start (some [1]) true)).error = some (.validationError "bad") ∧
    countTerm (step cfgV stW (.start (some [1]) true)).outQueue = 0 := ⟨rfl, rfl⟩

/-- C1 (amended): no handler step ever enqueues two Termination events, and
exactly one is enqueued by each of: a participant-reported Error; a
response-handling step that re-raises an error; a completing response step
stopped by the termination condition; a completing response step that reaches
the maximum turn count; a Start received by an already-terminated manager; and
a Start whose initial messages make the condition signal.  Error paths during
Start handling (validator or speaker-transition failure) re-raise with zero
Termination events; relay, pause and resume steps enqueue none. -/
theorem c1_termination_events (cfg : Config α σ) (s : ManagerState α σ) (ib : Inbound α) :
    countTerm (step cfg s ib).outQueue ≤ 1 ∧
    (∀ e, ib = .errorMsg e → countTerm (step cfg s ib).outQueue = 1) ∧
    (∀ resp, ib = .response resp → (step cfg s ib).error.isSome = true →
      countTerm (step cfg s ib).outQueue = 1) ∧
    (∀ resp, ib = .response resp → nameOf resp ∈ s.active_speakers →
      s.active_speakers.erase (nameOf resp) = [] →
      condStops cfg s.condState (deltaOf resp) = true →
      countTerm (step cfg s ib).outQueue = 1) ∧
    (∀ resp m, ib = .response resp → nameOf resp ∈ s.active_speakers →
      s.active_speakers.erase (nameOf resp) = [] → cfg.max_turns = some m →
      (s.current_turn : Int) + 1 ≥ m →
      countTerm (step cfg s ib).outQueue = 1) ∧
    (∀ msgs otm, ib = .start msgs otm → alreadyTerminated cfg s = true →
      countTerm (step cfg s ib).outQueue = 1) ∧
    (∀ msgs otm, ib = .start (some msgs) otm → alreadyTerminated cfg s = false →
      cfg.validate_group_state (some msgs) = .ok () →
      condStops cfg s.condState msgs = true →
      countTerm (step cfg s ib).outQueue = 1) ∧
    (∀ msgs otm, ib = .start msgs otm → (step cfg s ib).error.isSome = true →
      countTerm (step cfg s ib).outQueue = 0) ∧
    (∀ x, ib = .relay x → countTerm (step cfg s ib).outQueue = 0) ∧
    ((ib = .pause ∨ ib = .resume) → countTerm (step cfg s ib).outQueue = 0) := by
  cases ib with
  | start msgs otm =>
    refine ⟨(start_count cfg s msgs otm).1, ?_, ?_, ?_, ?_, ?_, ?_, ?_, ?_, ?_⟩
    · intro e h; nomatch h
    · intro resp h; nomatch h
    · intro resp h; nomatch h
    · intro resp m h; nomatch h
    · intro msgs2 otm2 h hat
      simp [step, handle_start, hat, countTerm, OutItem.isTermination]
    · intro msgs2 otm2 h hat hv hcs
      injection h with h1 h2
      subst h1
      subst h2
      simp only [step, handle_start, hat, Bool.false_eq_true, if_false, hv]
      obtain ⟨h1, h2⟩ := apply_stop_of_cond cfg
        { message_thread := s.message_thread ++ msgs2, current_turn := s.current_turn,
          active_speakers := s.active_speakers, condState := s.condState } msgs2 false hcs
      simp only [h1, if_true]
      have h5 : countTerm (if otm = true then msgs2.map OutItem.msg else []) = 0 := by
        by_cases ho : otm = true
        · rw [if_pos ho]; exact countTerm_map_msg msgs2
        · rw [if_neg ho]; rfl
      rw [countTerm_append, h5, h2]
    · intro msgs2 otm2 h herr
      exact (start_count cfg s msgs otm).2 herr
    · intro x h; nomatch h
    · intro h; rcases h with h | h <;> nomatch h
  | response resp =>
    refine ⟨(response_count cfg s resp).1, ?_, ?_, ?_, ?_, ?_, ?_, ?_, ?_, ?_⟩
    · intro e h; nomatch h
    · intro resp2 h herr
      exact (response_count cfg s resp).2 herr
    · intro resp2 h hmem herase hcs
      injection h with h1
      subst h1
      rw [response_complete2 cfg s resp hmem herase]
      obtain ⟨h1, h2⟩ := apply_stop_of_cond cfg
        { message_thread := s.message_thread ++ deltaOf resp, current_turn := s.current_turn,
          active_speakers := [], condState := s.condState } (deltaOf resp) true hcs
      rw [afterComplete_stop cfg _ h1]
      exact h2
    · intro resp2 m h hmem herase hm hge
      injection h with h1
      subst h1
      rw [response_complete2 cfg s resp hmem herase]
      obtain ⟨h1, h2⟩ := apply_stop_of_max cfg
        { message_thread := s.message_thread ++ deltaOf resp, current_turn := s.current_turn,
          active_speakers := [], condState := s.condState } (deltaOf resp) m hm hge
      rw [afterComplete_stop cfg _ h1]
      exact h2
    · intro msgs otm h; nomatch h
    · intro msgs otm h; nomatch h
    · intro msgs otm h; nomatch h
    · intro x h; nomatch h
    · intro h; rcases h with h | h <;> nomatch h
  | relay x =>
    refine ⟨by simp [step, countTerm, OutItem.isTermination], ?_, ?_, ?_, ?_, ?_, ?_, ?_, ?_, ?_⟩
    · intro e h; nomatch h
    · intro resp h; nomatch h
    · intro resp h; nomatch h
    · intro resp m h; nomatch h
    · intro msgs otm h; nomatch h
    · intro msgs otm h; nomatch h
    · intro msgs otm h; nomatch h
    · intro x2 h
      simp [step, countTerm, OutItem.isTermination]
    · intro h; rcases h with h | h <;> nomatch h
  | errorMsg e =>
    refine ⟨by simp [step, countTerm, OutItem.isTermination], ?_, ?_, ?_, ?_, ?_, ?_, ?_, ?_, ?_⟩
    · intro e2 h
      simp [step, countTerm, OutItem.isTermination]
    · intro resp h; nomatch h
    · intro resp h; nomatch h
    · intro resp m h; nomatch h
    · intro msgs otm h; nomatch h
    · intro msgs otm h; nomatch h
    · intro msgs otm h; nomatch h
    · intro x h; nomatch h
    · intro h; rcases h with h | h <;> nomatch h
  | pause =>
    refine ⟨by simp [step, countTerm], ?_, ?_, ?_, ?_, ?_, ?_, ?_, ?_, ?_⟩
    · intro e h; nomatch h
    · intro resp h; nomatch h
    · intro resp h; nomatch h
    · intro resp m h; nomatch h
    · intro msgs otm h; nomatch h
    · intro msgs otm h; nomatch h
    · intro msgs otm h; nomatch h
    · intro x h; nomatch h
    · intro h
      simp [step, countTerm]
  | resume =>
    refine ⟨by simp [step, countTerm], ?_, ?_, ?_, ?_, ?_, ?_, ?_, ?_, ?_⟩
    · intro e h; nomatch h
    · intro resp h; nomatch h
    · intro resp h; nomatch h
    · intro resp m h; nomatch h
    · intro msgs otm h; nomatch h
    · intro msgs otm h; nomatch h
    · intro msgs otm h; nomatch h
    · intro x h; nomatch h
    · intro h
      simp [step, countTerm]

/-- Witness for the amended C1: a participant-reported Error enqueues exactly
one Termination event. -/
theorem c1_termination_events_witness :
    countTerm (step cfgW stW (.errorMsg (.selectionError "x"))).outQueue = 1 :=
  (c1_termination_events cfgW stW (.errorMsg (.selectionError "x"))).2.1
    (.selectionError "x") rfl

/-- C8 counterexample: a participant-reported Error makes the manager enqueue
a Termination event without resetting the termination condition; with the
configured condition of cfgW (whose terminated flag is its Bool state) and the
flag set, the flag is still true afterwards, refuting the claim that reset()
has been called after any coordinator-caused termination. -/
theorem c8_counterexample :
    countTerm (step cfgW { stW with condState := true }
      (.errorMsg (.selectionError "boom"))).outQueue = 1 ∧
    condNever.terminated (step cfgW { stW with condState := true }
      (.errorMsg (.selectionError "boom"))).state.condState = true := ⟨rfl, rfl⟩

/-- C8 (amended): reset() is called (and the terminated flag is false
afterwards) exactly for the terminations performed by
_apply_termination_condition — a condition-signalled stop or the maximum-turns
stop, on both the response path and the Start path; error-path terminations
never call reset(): a participant-reported Error or an unsolicited response
leaves the condition state untouched, and a selector error caught after round
completion leaves the condition in the state the evaluation advanced it to. -/
theorem c8_condition_reset :
    (∀ (cfg : Config α σ) (s : ManagerState α σ) (resp : ResponseMsg α)
       (tc : TerminationCondition α σ) (sm : StopMessage) (cs : σ),
      cfg.termination_condition = some tc →
      (∀ x, tc.terminated (tc.resetState x) = false) →
      nameOf resp ∈ s.active_speakers →
      s.active_speakers.erase (nameOf resp) = [] →
      tc.eval s.condState (deltaOf resp) = (some sm, cs) →
      (step cfg s (.response resp)).state.condState = tc.resetState cs ∧
      tc.terminated (step cfg s (.response resp)).state.condState = false ∧
      countTerm (step cfg s (.response resp)).outQueue = 1) ∧
    (∀ (cfg : Config α σ) (s : ManagerState α σ) (resp : ResponseMsg α)
       (tc : TerminationCondition α σ) (cs : σ) (m : Int),
      cfg.termination_condition = some tc →
      (∀ x, tc.terminated (tc.resetState x) = false) →
      nameOf resp ∈ s.active_speakers →
      s.active_speakers.erase (nameOf resp) = [] →
      tc.eval s.condState (deltaOf resp) = (none, cs) →
      cfg.max_turns = some m →
      (s.current_turn : Int) + 1 ≥ m →
      (step cfg s (.response resp)).state.condState = tc.resetState cs ∧
      tc.terminated (step cfg s (.response resp)).state.condState = false) ∧
    (∀ (cfg : Config α σ) (s : ManagerState α σ) (msgs : List α) (otm : Bool)
       (tc : TerminationCondition α σ) (sm : StopMessage) (cs : σ),
      cfg.termination_condition = some tc →
      (∀ x, tc.terminated (tc.resetState x) = false) →
      tc.terminated s.condState = false →
      cfg.validate_group_state (some msgs) = .ok () →
      tc.eval s.condState msgs = (some sm, cs) →
      (step cfg s (.start (some msgs) otm)).state.condState = tc.resetState cs ∧
      tc.terminated (step cfg s (.start (some msgs) otm)).state.condState = false) ∧
    (∀ (cfg : Config α σ) (s : ManagerState α σ) (msgs : List α) (otm : Bool)
       (tc : TerminationCondition α σ) (cs : σ) (m : Int),
      cfg.termination_condition = some tc →
      (∀ x, tc.terminated (tc.resetState x) = false) →
      tc.terminated s.condState = false →
      cfg.validate_group_state (some msgs) = .ok () →
      tc.eval s.condState msgs = (none, cs) →
      cfg.max_turns = some m →
      (s.current_turn : Int) ≥ m →
      (step cfg s (.start (some msgs) otm)).state.condState = tc.resetState cs ∧
      tc.terminated (step cfg s (.start (some msgs) otm)).state.condState = false) ∧
    (∀ (cfg : Config α σ) (s : ManagerState α σ) (resp : ResponseMsg α)
       (tc : TerminationCondition α σ) (cs : σ) (e : GCError),
      cfg.termination_condition = some tc →
      nameOf resp ∈ s.active_speakers →
      s.active_speakers.erase (nameOf resp) = [] →
      tc.eval s.condState (deltaOf resp) = (none, cs) →
      maxReached cfg (s.current_turn + 1) = false →
      cfg.select_speaker (s.message_thread ++ deltaOf resp) = .error e →
      (step cfg s (.response resp)).state.condState = cs ∧
      countTerm (step cfg s (.response resp)).outQueue = 1) ∧
    (∀ (cfg : Config α σ) (s : ManagerState α σ) (e : GCError),
      (step cfg s (.errorMsg e)).state.condState = s.condState) ∧
    (∀ (cfg : Config α σ) (s : ManagerState α σ) (resp : ResponseMsg α),
      nameOf resp ∉ s.active_speakers →
      (step cfg s (.response resp)).state.condState = s.condState) := by
  refine ⟨?_, ?_, ?_, ?_, ?_, ?_, ?_⟩
  · intro cfg s resp tc sm cs hc hreset hmem herase he
    rw [response_complete2 cfg s resp hmem herase]
    have ha := apply_eval_some cfg
      { message_thread := s.message_thread ++ deltaOf resp, current_turn := s.current_turn,
        active_speakers := [], condState := s.condState } (deltaOf resp) true tc sm cs hc he
    have hstop : (applyTerminationCondition cfg
        { message_thread := s.message_thread ++ deltaOf resp, current_turn := s.current_turn,
          active_speakers := [], condState := s.condState } (deltaOf resp) true).stop = true := by
      rw [ha]
    rw [afterComplete_stop cfg _ hstop, ha]
    refine ⟨rfl, hreset cs, ?_⟩
    simp [countTerm, OutItem.isTermination]
  · intro cfg s resp tc cs m hc hreset hmem herase he hm hge
    rw [response_complete2 cfg s resp hmem herase]
    have ha := apply_eval_none cfg
      { message_thread := s.message_thread ++ deltaOf resp, current_turn := s.current_turn,
        active_speakers := [], condState := s.condState } (deltaOf resp) true tc cs hc he
    have hb := applyMax_reached cfg
      { message_thread := s.message_thread ++ deltaOf resp, current_turn := s.current_turn,
        active_speakers := [], condState := cs }
      true 1 m hm (by show ((s.current_turn + 1 : Nat) : Int) ≥ m; push_cast; omega)
    have hstop : (applyTerminationCondition cfg
        { message_thread := s.message_thread ++ deltaOf resp, current_turn := s.current_turn,
          active_speakers := [], condState := s.condState } (deltaOf resp) true).stop = true := by
      rw [ha, hb]
    rw [afterComplete_stop cfg _ hstop, ha, hb]
    simp only [hc]
    exact ⟨by trivial, hreset cs⟩
  · intro cfg s msgs otm tc sm cs hc hreset ht hv he
    have hat : alreadyTerminated cfg s = false := by
      unfold alreadyTerminated; rw [hc]; exact ht
    have hcond : (step cfg s (.start (some msgs) otm)).state.condState = tc.resetState cs := by
      simp only [step, handle_start, hat, Bool.false_eq_true, if_false, hv]
      have ha := apply_eval_some cfg
        { s with message_thread := s.message_thread ++ msgs } msgs false tc sm cs hc he
      rw [ha]
      simp
    exact ⟨hcond, by rw [hcond]; exact hreset cs⟩
  · intro cfg s msgs otm tc cs m hc hreset ht hv he hm hge
    have hat : alreadyTerminated cfg s = false := by
      unfold alreadyTerminated; rw [hc]; exact ht
    have hcond : (step cfg s (.start (some msgs) otm)).state.condState = tc.resetState cs := by
      simp only [step, handle_start, hat, Bool.false_eq_true, if_false, hv]
      have ha := apply_eval_none cfg
        { s with message_thread := s.message_thread ++ msgs } msgs false tc cs hc he
      have hb := applyMax_reached cfg
        { message_thread := s.message_thread ++ msgs, current_turn := s.current_turn,
          active_speakers := s.active_speakers, condState := cs } false 1 m hm hge
      rw [ha, hb]
      simp [hc]
    exact ⟨hcond, by rw [hcond]; exact hreset cs⟩
  · intro cfg s resp tc cs e hc hmem herase he hmax hsel
    rw [response_complete2 cfg s resp hmem herase]
    have ha := apply_eval_none cfg
      { message_thread := s.message_thread ++ deltaOf resp, current_turn := s.current_turn,
        active_speakers := [], condState := s.condState } (deltaOf resp) true tc cs hc he
    have hb := applyMax_not_reached cfg
      { message_thread := s.message_thread ++ deltaOf resp, current_turn := s.current_turn,
        active_speakers := [], condState := cs } true 1 (by simpa using hmax)
    have hstop : (applyTerminationCondition cfg
        { message_thread := s.message_thread ++ deltaOf resp, current_turn := s.current_turn,
          active_speakers := [], condState := s.condState } (deltaOf resp) true).stop = false := by
      rw [ha, hb]
    have hterr : (transitionToNextSpeakers cfg (applyTerminationCondition cfg
        { message_thread := s.message_thread ++ deltaOf resp, current_turn := s.current_turn,
          active_speakers := [], condState := s.condState }
        (deltaOf resp) true).state).error = some e := by
      rw [ha, hb]
      show (transitionToNextSpeakers cfg
        { message_thread := s.message_thread ++ deltaOf resp, current_turn := s.current_turn + 1,
          active_speakers := [], condState := cs }).error = some e
      rw [trans_select_err cfg _ e hsel]
    constructor
    · rw [afterComplete_nostop_state cfg _ hstop, ha, hb]
      simp
    · obtain ⟨hb1, hb2, hb3, hb4⟩ := afterComplete_nostop cfg _ hstop
      rw [hb4, hterr, ha, hb]
      simp [countTerm, errWeight]
  · intro cfg s e
    rfl
  · intro cfg s resp
    intro hmem
    simp only [step, handle_agent_response]
    rw [if_neg hmem]

/-- Witness for the amended C8: a condition-signalled stop leaves the
condition reset, with its terminated flag false, and one Termination event. -/
theorem c8_condition_reset_witness :
    condOnSeven.terminated (step cfg9 { stW with active_speakers := ["X"] }
      (.response (.team "X" [7]))).state.condState = false ∧
    countTerm (step cfg9 { stW with active_speakers := ["X"] }
      (.response (.team "X" [7]))).outQueue = 1 :=
  ⟨(c8_condition_reset.1 cfg9 { stW with active_speakers := ["X"] } (.team "X" [7])
      condOnSeven { content := "seven", source := "cond" } true rfl (fun x => rfl)
      (by simp [nameOf, stW]) (by simp [nameOf, stW]) rfl).2.1,
   (c8_condition_reset.1 cfg9 { stW with active_speakers := ["X"] } (.team "X" [7])
      condOnSeven { content := "seven", source := "cond" } true rfl (fun x => rfl)
      (by simp [nameOf, stW]) (by simp [nameOf, stW]) rfl).2.2⟩
end AgentChat
